import Mathlib

/-!
Verification of the conflict-evaluator core of the frontend service
(`src/Events.tsx`).

Timestamps: the source stores `start_time` / `end_time` as ISO-8601 strings
and converts them with `new Date(...)` before comparing; `Date` comparison
coerces to the numeric epoch value, so we embed a parsed timestamp as `Int`.
Parsing itself is a collaborator concern and out of scope.
-/

/-- The `type` tag of a schedule entry: `'class' | 'event' | 'personal'`. -/
inductive ScheduleType where
  | «class»
  | event
  | personal
deriving DecidableEq, Repr

/-- String form of the tag, as interpolated into the reason template. -/
def scheduleTypeStr : ScheduleType → String
  | .«class» => "class"
  | .event => "event"
  | .personal => "personal"

/-- The `Schedule` interface of `Events.tsx` (times already parsed). -/
structure Schedule where
  schedule_id : Int
  user_id : Int
  start_time : Int
  end_time : Int
  type : ScheduleType
  title : String
deriving DecidableEq, Repr

/-- An interest record attached to an event. -/
structure Interest where
  interest_id : Int
  interest_name : String
deriving DecidableEq, Repr

/-- The `Event` interface of `Events.tsx` (times already parsed).
`canRegister` and `conflictReason` are the optional annotation fields;
`none` embeds an absent / `undefined` property. -/
structure Event where
  event_id : Int
  title : String
  description : Option String
  location : Option String
  start_time : Int
  end_time : Int
  capacity : Option Int
  created_by : Int
  created_at : String
  interests : Option (List Interest)
  canRegister : Option Bool
  conflictReason : Option String
deriving DecidableEq, Repr

/-- The result shape `{ canRegister: boolean; reason?: string }` returned by
`checkEventConflict`. -/
structure ConflictCheck where
  canRegister : Bool
  reason : Option String := none
deriving DecidableEq, Repr

/-- The overlap condition of `Events.tsx` lines 87-91, exactly as written:
`(eventStart >= scheduleStart && eventStart < scheduleEnd) ||
 (eventEnd > scheduleStart && eventEnd <= scheduleEnd) ||
 (eventStart <= scheduleStart && eventEnd >= scheduleEnd)`. -/
def overlapsSchedule (eventStart eventEnd scheduleStart scheduleEnd : Int) : Bool :=
  (decide (eventStart ≥ scheduleStart) && decide (eventStart < scheduleEnd)) ||
  (decide (eventEnd > scheduleStart) && decide (eventEnd ≤ scheduleEnd)) ||
  (decide (eventStart ≤ scheduleStart) && decide (eventEnd ≥ scheduleEnd))

/-- The reason string built at `Events.tsx` line 94:
`` `Conflicts with ${schedule.title} (${schedule.type})` ``. -/
def conflictMsg (schedule : Schedule) : String :=
  "Conflicts with " ++ schedule.title ++ " (" ++ scheduleTypeStr schedule.type ++ ")"

/-- `checkEventConflict` of `Events.tsx` lines 78-100: scan `schedules` in
order; return `{canRegister: false, reason: ...}` at the first entry whose
overlap condition holds, else `{canRegister: true}` (reason absent). -/
def checkEventConflict (schedules : List Schedule) (event : Event) : ConflictCheck :=
  match schedules with
  | [] => { canRegister := true, reason := none }
  | schedule :: rest =>
    if overlapsSchedule event.start_time event.end_time
        schedule.start_time schedule.end_time then
      { canRegister := false, reason := some (conflictMsg schedule) }
    else
      checkEventConflict rest event

/-- The per-event annotation of `fetchEvents` (`Events.tsx` lines 140-147):
`{...event, canRegister: conflictCheck.canRegister, conflictReason: conflictCheck.reason}`. -/
def annotateEvent (schedules : List Schedule) (event : Event) : Event :=
  let conflictCheck := checkEventConflict schedules event
  { event with
      canRegister := some conflictCheck.canRegister
      conflictReason := conflictCheck.reason }

/-- The `eventsList.map (...)` pass of `fetchEvents`. -/
def annotateEvents (schedules : List Schedule) (eventsList : List Event) : List Event :=
  eventsList.map (annotateEvent schedules)

/-!
A small-step model of the `for (const schedule of schedules)` loop, used to
express that the loop reads but never writes its inputs: the state carries
the input snapshot (`schedules`, `event`), the loop cursor (`remaining`) and
the pending answer.
-/

/-- State of the scanning loop inside `checkEventConflict`. -/
structure EvalState where
  schedules : List Schedule
  event : Event
  remaining : List Schedule
  answer : Option ConflictCheck
deriving DecidableEq, Repr

/-- Initial loop state: cursor at the head of the snapshot, no answer yet. -/
def evalInit (schedules : List Schedule) (event : Event) : EvalState :=
  { schedules := schedules, event := event, remaining := schedules, answer := none }

/-- One loop iteration: an early `return` freezes the state; otherwise test
the entry under the cursor and either produce the conflict answer or move on;
an exhausted cursor produces the no-conflict answer. -/
def evalStep (st : EvalState) : EvalState :=
  match st.answer, st.remaining with
  | some _, _ => st
  | none, [] => { st with answer := some { canRegister := true, reason := none } }
  | none, schedule :: rest =>
    if overlapsSchedule st.event.start_time st.event.end_time
        schedule.start_time schedule.end_time then
      { st with remaining := rest,
                answer := some { canRegister := false, reason := some (conflictMsg schedule) } }
    else
      { st with remaining := rest }

/-- Run `n` iterations of the loop. -/
def evalRun : Nat → EvalState → EvalState
  | 0, st => st
  | n + 1, st => evalRun n (evalStep st)

/-- Run the loop of `checkEventConflict` to completion from the initial state. -/
def evalExec (schedules : List Schedule) (event : Event) : EvalState :=
  evalRun (schedules.length + 1) (evalInit schedules event)

/-- Sample event used to instantiate universally quantified theorems. -/
def mkEvent (startT endT : Int) : Event :=
  { event_id := 1, title := "E", description := none, location := none,
    start_time := startT, end_time := endT, capacity := none,
    created_by := 1, created_at := "", interests := none,
    canRegister := none, conflictReason := none }

/-- Sample schedule entry used to instantiate universally quantified theorems. -/
def mkSchedule (startT endT : Int) : Schedule :=
  { schedule_id := 1, user_id := 1, start_time := startT, end_time := endT,
    type := ScheduleType.«class», title := "S" }

/-! ### Helper lemmas -/

/-- Unfolding of the overlap condition into its three disjuncts. -/
lemma overlapsSchedule_iff (a1 a2 b1 b2 : Int) :
    overlapsSchedule a1 a2 b1 b2 = true ↔
      (a1 ≥ b1 ∧ a1 < b2) ∨ (a2 > b1 ∧ a2 ≤ b2) ∨ (a1 ≤ b1 ∧ a2 ≥ b2) := by
  simp [overlapsSchedule]
  tauto

/-- The scan succeeds (registration allowed) iff no entry overlaps. -/
lemma checkEventConflict_canRegister_iff (schedules : List Schedule) (event : Event) :
    (checkEventConflict schedules event).canRegister = true ↔
      ∀ s ∈ schedules, overlapsSchedule event.start_time event.end_time
        s.start_time s.end_time = false := by
  induction schedules with
  | nil => simp [checkEventConflict]
  | cons schedule rest ih =>
    by_cases h : overlapsSchedule event.start_time event.end_time
        schedule.start_time schedule.end_time = true
    · simp [checkEventConflict, h]
    · simp only [Bool.not_eq_true] at h
      simp [checkEventConflict, h, ih]

/-- Once the loop has produced an answer, stepping is the identity. -/
lemma evalStep_answered (st : EvalState) (r : ConflictCheck) (h : st.answer = some r) :
    evalStep st = st := by
  obtain ⟨s, e, rem, ans⟩ := st
  simp only at h
  subst h
  rfl

/-- Unfolding one loop iteration. -/
lemma evalRun_succ (n : Nat) (st : EvalState) :
    evalRun (n + 1) st = evalRun n (evalStep st) := rfl

/-- Once the loop has produced an answer, running any number of further
iterations is the identity. -/
lemma evalRun_answered (n : Nat) (st : EvalState) (r : ConflictCheck)
    (h : st.answer = some r) : evalRun n st = st := by
  induction n with
  | zero => rfl
  | succ n ih => rw [evalRun_succ, evalStep_answered st r h, ih]

/-- Running the loop from a fresh cursor leaves the input snapshot intact and
computes the answer of `checkEventConflict` on the cursor's list. -/
lemma evalRun_spec (rem : List Schedule) (s : List Schedule) (e : Event) :
    (evalRun (rem.length + 1) ⟨s, e, rem, none⟩).schedules = s ∧
    (evalRun (rem.length + 1) ⟨s, e, rem, none⟩).event = e ∧
    (evalRun (rem.length + 1) ⟨s, e, rem, none⟩).answer =
      some (checkEventConflict rem e) := by
  induction rem with
  | nil =>
    refine ⟨?_, ?_, ?_⟩ <;> rfl
  | cons schedule rest ih =>
    by_cases h : overlapsSchedule e.start_time e.end_time
        schedule.start_time schedule.end_time = true
    · have hstep : evalStep ⟨s, e, schedule :: rest, none⟩ =
          ⟨s, e, rest, some { canRegister := false, reason := some (conflictMsg schedule) }⟩ := by
        simp [evalStep, h]
      have hrun : evalRun (rest.length + 1)
          (⟨s, e, rest, some { canRegister := false, reason := some (conflictMsg schedule) }⟩ :
            EvalState) =
          ⟨s, e, rest, some { canRegister := false, reason := some (conflictMsg schedule) }⟩ :=
        evalRun_answered _ _ _ rfl
      simp only [List.length_cons]
      rw [evalRun_succ, hstep, hrun]
      refine ⟨rfl, rfl, ?_⟩
      simp [checkEventConflict, h]
    · simp only [Bool.not_eq_true] at h
      have hstep : evalStep ⟨s, e, schedule :: rest, none⟩ = ⟨s, e, rest, none⟩ := by
        simp [evalStep, h]
      simp only [List.length_cons]
      rw [evalRun_succ, hstep]
      refine ⟨ih.1, ih.2.1, ?_⟩
      rw [ih.2.2]
      simp [checkEventConflict, h]

/-- The reason is absent iff the scan found no overlap. -/
lemma checkEventConflict_reason_none_iff (schedules : List Schedule) (event : Event) :
    (checkEventConflict schedules event).reason = none ↔
      (checkEventConflict schedules event).canRegister = true := by
  induction schedules with
  | nil => simp [checkEventConflict]
  | cons schedule rest ih =>
    by_cases h : overlapsSchedule event.start_time event.end_time
        schedule.start_time schedule.end_time = true
    · simp [checkEventConflict, h]
    · simp only [Bool.not_eq_true] at h
      simp [checkEventConflict, h, ih]

/-- A single-entry scan reports a conflict iff the overlap condition holds. -/
lemma checkEventConflict_singleton (schedule : Schedule) (event : Event) :
    (checkEventConflict [schedule] event).canRegister = false ↔
      overlapsSchedule event.start_time event.end_time
        schedule.start_time schedule.end_time = true := by
  by_cases h : overlapsSchedule event.start_time event.end_time
      schedule.start_time schedule.end_time = true
  · simp [checkEventConflict, h]
  · simp only [Bool.not_eq_true] at h
    simp [checkEventConflict, h]

/-- For a zero-length candidate at point `p`, the overlap condition holds iff
`p` lies in the closed span of the entry. -/
lemma overlapsSchedule_point (p b1 b2 : Int) :
    overlapsSchedule p p b1 b2 = true ↔ (min b1 b2 ≤ p ∧ p ≤ max b1 b2) := by
  rw [overlapsSchedule_iff]
  omega

/-! ### Claims -/

/-- C1, counterexample: the claim "checkEventConflict reports a conflict with
an entry iff candidate.start < entry.end AND entry.start < candidate.end" is
false as stated over all intervals: for the zero-length candidate [0, 0] and
the entry [0, 1] the code reports a conflict (its first disjunct
`eventStart >= scheduleStart && eventStart < scheduleEnd` fires) while the
half-open predicate is false (`0 < 0` fails). -/
theorem halfOpen_iff_counterexample :
    (checkEventConflict [mkSchedule 0 1] (mkEvent 0 0)).canRegister = false ∧
    ¬((mkEvent 0 0).start_time < (mkSchedule 0 1).end_time ∧
      (mkSchedule 0 1).start_time < (mkEvent 0 0).end_time) := by
  exact ⟨by decide, by decide⟩

/-- C1, amended: for a candidate and an entry that are both non-degenerate
and well-ordered (start < end), the evaluator reports a conflict with the
entry iff the half-open intersection predicate
`candidate.start < entry.end AND entry.start < candidate.end` holds. -/
theorem checkEventConflict_iff_halfOpen (event : Event) (schedule : Schedule)
    (he : event.start_time < event.end_time)
    (hs : schedule.start_time < schedule.end_time) :
    ((checkEventConflict [schedule] event).canRegister = false ↔
      (event.start_time < schedule.end_time ∧
       schedule.start_time < event.end_time)) := by
  rw [checkEventConflict_singleton, overlapsSchedule_iff]
  omega

/-- C1, witness: candidate [0, 10) and entry [5, 15) are well-formed, satisfy
the half-open predicate, and the evaluator reports a conflict. -/
theorem checkEventConflict_iff_halfOpen_witness :
    (mkEvent 0 10).start_time < (mkEvent 0 10).end_time ∧
    (mkSchedule 5 15).start_time < (mkSchedule 5 15).end_time ∧
    (checkEventConflict [mkSchedule 5 15] (mkEvent 0 10)).canRegister = false :=
  ⟨by decide, by decide,
    (checkEventConflict_iff_halfOpen (mkEvent 0 10) (mkSchedule 5 15)
      (by decide) (by decide)).mpr (by decide)⟩

/-- C2, counterexample: a zero-length candidate does NOT always yield
NoConflict: the candidate [5, 5] against the single entry [0, 10] is reported
as a conflict (the code's first disjunct fires with `5 >= 0 && 5 < 10`),
refuting "regardless of the reference set contents". -/
theorem zeroLengthCandidate_counterexample :
    (mkEvent 5 5).start_time = (mkEvent 5 5).end_time ∧
    (checkEventConflict [mkSchedule 0 10] (mkEvent 5 5)).canRegister = false := by
  exact ⟨by decide, by decide⟩

/-- C2, amended: a candidate with `start == end == p` yields NoConflict iff
`p` lies strictly outside the closed span `[min(start, end), max(start, end)]`
of every reference entry; in particular it CAN conflict, namely whenever some
entry's closed span contains `p`. -/
theorem zeroLengthCandidate_noConflict_iff (p : Int) (schedules : List Schedule)
    (event : Event) (h1 : event.start_time = p) (h2 : event.end_time = p) :
    (checkEventConflict schedules event).canRegister = true ↔
      ∀ s ∈ schedules,
        p < min s.start_time s.end_time ∨ max s.start_time s.end_time < p := by
  rw [checkEventConflict_canRegister_iff]
  simp only [h1, h2]
  constructor
  · intro h s hs
    have hb := h s hs
    have hp := overlapsSchedule_point p s.start_time s.end_time
    rw [hb] at hp
    simp only [Bool.false_eq_true, false_iff] at hp
    omega
  · intro h s hs
    have hb := h s hs
    rw [← Bool.not_eq_true, overlapsSchedule_point]
    omega

/-- C2, witness: the zero-length candidate [0, 0] against the entry [1, 2]
yields NoConflict, since 0 is outside the entry's closed span. -/
theorem zeroLengthCandidate_noConflict_iff_witness :
    (checkEventConflict [mkSchedule 1 2] (mkEvent 0 0)).canRegister = true :=
  (zeroLengthCandidate_noConflict_iff 0 [mkSchedule 1 2] (mkEvent 0 0)
    rfl rfl).mpr (by decide)

/-- C3, counterexample: a zero-length reference entry CAN trigger a conflict:
the entry [5, 5] makes the candidate [0, 10] conflict (the code's third
disjunct fires with `0 <= 5 && 10 >= 5`), whereas with the entry absent the
result is NoConflict — so the result is not "the same as if that entry were
absent". -/
theorem zeroLengthEntry_counterexample :
    (mkSchedule 5 5).start_time = (mkSchedule 5 5).end_time ∧
    (checkEventConflict [mkSchedule 5 5] (mkEvent 0 10)).canRegister = false ∧
    (checkEventConflict [] (mkEvent 0 10)).canRegister = true := by
  exact ⟨by decide, by decide, by decide⟩

/-- C3, amended: a reference entry with `start == end == q` triggers the
overlap condition iff `candidate.start <= q <= candidate.end`; whenever `q`
is outside the candidate's closed span, inserting the entry anywhere in the
reference sequence leaves the evaluator's result unchanged. -/
theorem zeroLengthEntry_overlap_iff (event : Event) (s : Schedule) (q : Int)
    (h1 : s.start_time = q) (h2 : s.end_time = q) :
    (overlapsSchedule event.start_time event.end_time
        s.start_time s.end_time = true ↔
      (event.start_time ≤ q ∧ q ≤ event.end_time)) ∧
    (¬(event.start_time ≤ q ∧ q ≤ event.end_time) →
      ∀ pre post : List Schedule,
        checkEventConflict (pre ++ s :: post) event =
          checkEventConflict (pre ++ post) event) := by
  have hiff : overlapsSchedule event.start_time event.end_time
      s.start_time s.end_time = true ↔
      (event.start_time ≤ q ∧ q ≤ event.end_time) := by
    rw [h1, h2, overlapsSchedule_iff]
    omega
  refine ⟨hiff, ?_⟩
  intro hout pre post
  have hfalse : overlapsSchedule event.start_time event.end_time
      s.start_time s.end_time = false := by
    rw [← Bool.not_eq_true, hiff]
    exact hout
  induction pre with
  | nil => simp [checkEventConflict, hfalse]
  | cons t rest ih =>
    by_cases ht : overlapsSchedule event.start_time event.end_time
        t.start_time t.end_time = true
    · simp [checkEventConflict, ht]
    · simp only [Bool.not_eq_true] at ht
      simp [checkEventConflict, ht, ih]

/-- C3, witness: the zero-length entry [20, 20] is outside the candidate
[0, 10]'s span, and the evaluator's result equals the result on the empty
reference sequence. -/
theorem zeroLengthEntry_overlap_iff_witness :
    checkEventConflict [mkSchedule 20 20] (mkEvent 0 10) =
      checkEventConflict [] (mkEvent 0 10) :=
  (zeroLengthEntry_overlap_iff (mkEvent 0 10) (mkSchedule 20 20) 20
    rfl rfl).2 (by decide) [] []

/-- C4: first match wins — if no entry before `r` in the reference sequence
satisfies the overlap condition and `r` does, the evaluator returns the
conflict naming `r` (its title and type in the reason), whatever comes after
`r`; applied to a reordered sequence it names whichever overlapping entry
comes first there. -/
theorem checkEventConflict_first_match (event : Event) (r : Schedule)
    (pre post : List Schedule)
    (hpre : ∀ s ∈ pre, overlapsSchedule event.start_time event.end_time
        s.start_time s.end_time = false)
    (hr : overlapsSchedule event.start_time event.end_time
        r.start_time r.end_time = true) :
    checkEventConflict (pre ++ r :: post) event =
      { canRegister := false, reason := some (conflictMsg r) } := by
  induction pre with
  | nil =>
    simp [checkEventConflict, hr]
  | cons t rest ih =>
    have ht := hpre t (List.mem_cons_self t rest)
    simp only [List.cons_append, checkEventConflict, ht, Bool.false_eq_true,
      if_false]
    exact ih (fun s hs => hpre s (List.mem_cons_of_mem t hs))

/-- C4, witness: with the non-overlapping entry [20, 30] first and the two
overlapping entries [5, 15] and [6, 16] after it, the evaluator names
[5, 15], the first overlapping entry in sequence order. -/
theorem checkEventConflict_first_match_witness :
    (∀ s ∈ [mkSchedule 20 30], overlapsSchedule (mkEvent 0 10).start_time
        (mkEvent 0 10).end_time s.start_time s.end_time = false) ∧
    overlapsSchedule (mkEvent 0 10).start_time (mkEvent 0 10).end_time
      (mkSchedule 5 15).start_time (mkSchedule 5 15).end_time = true ∧
    checkEventConflict [mkSchedule 20 30, mkSchedule 5 15, mkSchedule 6 16]
        (mkEvent 0 10) =
      { canRegister := false, reason := some (conflictMsg (mkSchedule 5 15)) } :=
  ⟨by decide, by decide,
    checkEventConflict_first_match (mkEvent 0 10) (mkSchedule 5 15)
      [mkSchedule 20 30] [mkSchedule 6 16] (by decide) (by decide)⟩

/-- C5: whenever the evaluator reports a conflict, the reason is exactly
`"Conflicts with " ++ title ++ " (" ++ type ++ ")"` for some overlapping
entry of the reference sequence. -/
theorem checkEventConflict_reason_format (schedules : List Schedule) (event : Event)
    (h : (checkEventConflict schedules event).canRegister = false) :
    ∃ s ∈ schedules,
      overlapsSchedule event.start_time event.end_time
        s.start_time s.end_time = true ∧
      (checkEventConflict schedules event).reason =
        some ("Conflicts with " ++ s.title ++ " (" ++ scheduleTypeStr s.type ++ ")") := by
  induction schedules with
  | nil => simp [checkEventConflict] at h
  | cons t rest ih =>
    by_cases ht : overlapsSchedule event.start_time event.end_time
        t.start_time t.end_time = true
    · refine ⟨t, List.mem_cons_self t rest, ht, ?_⟩
      simp [checkEventConflict, ht, conflictMsg]
    · simp only [Bool.not_eq_true] at ht
      have h' : (checkEventConflict rest event).canRegister = false := by
        simpa [checkEventConflict, ht] using h
      obtain ⟨s, hs, hov, hreason⟩ := ih h'
      refine ⟨s, List.mem_cons_of_mem t hs, hov, ?_⟩
      simpa [checkEventConflict, ht] using hreason

/-- C5, witness: the entry [5, 15] titled "S" of type class conflicts with
the candidate [0, 10], producing the exact reason string. -/
theorem checkEventConflict_reason_format_witness :
    ∃ s ∈ [mkSchedule 5 15],
      overlapsSchedule (mkEvent 0 10).start_time (mkEvent 0 10).end_time
        s.start_time s.end_time = true ∧
      (checkEventConflict [mkSchedule 5 15] (mkEvent 0 10)).reason =
        some ("Conflicts with " ++ s.title ++ " (" ++ scheduleTypeStr s.type ++ ")") :=
  checkEventConflict_reason_format [mkSchedule 5 15] (mkEvent 0 10) (by decide)

/-- C6, counterexample: "candidate.end == entry.start implies NoConflict" is
false as stated over all intervals: the degenerate candidate [3, 3] touches
the entry [3, 10] (its end equals the entry's start) yet the code reports a
conflict, because its first disjunct `3 >= 3 && 3 < 10` fires. -/
theorem touching_conflict_counterexample :
    (mkEvent 3 3).end_time = (mkSchedule 3 10).start_time ∧
    (checkEventConflict [mkSchedule 3 10] (mkEvent 3 3)).canRegister = false := by
  exact ⟨by decide, by decide⟩

/-- C6, amended: for a candidate and an entry that are both non-degenerate
and well-ordered (start < end), back-to-back touching
(candidate.end == entry.start) never satisfies the overlap condition and the
evaluator returns NoConflict for that entry. -/
theorem touching_noConflict (event : Event) (s : Schedule)
    (he : event.start_time < event.end_time)
    (hs : s.start_time < s.end_time)
    (htouch : event.end_time = s.start_time) :
    overlapsSchedule event.start_time event.end_time
      s.start_time s.end_time = false ∧
    (checkEventConflict [s] event).canRegister = true := by
  have hov : overlapsSchedule event.start_time event.end_time
      s.start_time s.end_time = false := by
    rw [← Bool.not_eq_true, overlapsSchedule_iff]
    omega
  exact ⟨hov, by simp [checkEventConflict, hov]⟩

/-- C6, witness: candidate [0, 5) back-to-back with entry [5, 10) is not a
conflict. -/
theorem touching_noConflict_witness :
    (checkEventConflict [mkSchedule 5 10] (mkEvent 0 5)).canRegister = true :=
  (touching_noConflict (mkEvent 0 5) (mkSchedule 5 10)
    (by decide) (by decide) (by decide)).2

/-- C7: evaluating any candidate against the empty reference sequence yields
NoConflict: `canRegister` is true and no reason is produced. -/
theorem checkEventConflict_nil (event : Event) :
    checkEventConflict [] event = { canRegister := true, reason := none } := rfl

/-- C8: purity and determinism of the evaluator. The scanning loop, modelled
as the state machine `evalStep`/`evalRun` whose state carries the input
snapshot, leaves `schedules` and `event` exactly as given (no mutation of the
candidate or the reference sequence), and its answer is
`checkEventConflict schedules event`, a function of the inputs alone — so two
runs on identical inputs produce identical results. -/
theorem checkEventConflict_pure_deterministic (schedules : List Schedule)
    (event : Event) :
    (evalExec schedules event).schedules = schedules ∧
    (evalExec schedules event).event = event ∧
    (evalExec schedules event).answer = some (checkEventConflict schedules event) :=
  evalRun_spec schedules schedules event

/-- C9: the annotation pass of `fetchEvents` maps each fetched event to a
record with every non-annotation field unchanged, `canRegister` set to the
evaluator's boolean (true iff no entry overlaps), and `conflictReason` set to
the evaluator's reason (absent exactly when registration is allowed). -/
theorem annotateEvent_spec (schedules : List Schedule) (eventsList : List Event)
    (event : Event) (h : event ∈ eventsList) :
    annotateEvent schedules event ∈ annotateEvents schedules eventsList ∧
    (annotateEvent schedules event).event_id = event.event_id ∧
    (annotateEvent schedules event).title = event.title ∧
    (annotateEvent schedules event).description = event.description ∧
    (annotateEvent schedules event).location = event.location ∧
    (annotateEvent schedules event).start_time = event.start_time ∧
    (annotateEvent schedules event).end_time = event.end_time ∧
    (annotateEvent schedules event).capacity = event.capacity ∧
    (annotateEvent schedules event).created_by = event.created_by ∧
    (annotateEvent schedules event).created_at = event.created_at ∧
    (annotateEvent schedules event).interests = event.interests ∧
    (annotateEvent schedules event).canRegister =
      some (checkEventConflict schedules event).canRegister ∧
    (annotateEvent schedules event).conflictReason =
      (checkEventConflict schedules event).reason ∧
    ((annotateEvent schedules event).canRegister = some true ↔
      ∀ s ∈ schedules, overlapsSchedule event.start_time event.end_time
        s.start_time s.end_time = false) ∧
    ((annotateEvent schedules event).conflictReason = none ↔
      (checkEventConflict schedules event).canRegister = true) := by
  refine ⟨List.mem_map_of_mem _ h, rfl, rfl, rfl, rfl, rfl, rfl, rfl, rfl, rfl,
    rfl, rfl, rfl, ?_, ?_⟩
  · have hc : (annotateEvent schedules event).canRegister =
        some (checkEventConflict schedules event).canRegister := rfl
    rw [hc, Option.some_inj]
    exact checkEventConflict_canRegister_iff schedules event
  · have hr : (annotateEvent schedules event).conflictReason =
        (checkEventConflict schedules event).reason := rfl
    rw [hr]
    exact checkEventConflict_reason_none_iff schedules event

/-- C9, witness: instantiation for the single fetched event [0, 10] against
the schedule entry [5, 15]; the annotated record is in the mapped list. -/
theorem annotateEvent_spec_witness :
    annotateEvent [mkSchedule 5 15] (mkEvent 0 10) ∈
      annotateEvents [mkSchedule 5 15] [mkEvent 0 10] :=
  (annotateEvent_spec [mkSchedule 5 15] [mkEvent 0 10] (mkEvent 0 10)
    (by simp)).1

/-- C10: concatenation behaviour of the scan — the evaluator allows
registration on `S ++ T` iff it does on `S` and on `T`; and a conflict found
on `S` (with its named entry and reason) is returned unchanged on `S ++ T`:
appending entries never removes or changes an existing first conflict. -/
theorem checkEventConflict_append (event : Event) (S T : List Schedule) :
    ((checkEventConflict (S ++ T) event).canRegister = true ↔
      (checkEventConflict S event).canRegister = true ∧
      (checkEventConflict T event).canRegister = true) ∧
    ((checkEventConflict S event).canRegister = false →
      checkEventConflict (S ++ T) event = checkEventConflict S event) := by
  induction S with
  | nil => simp [checkEventConflict]
  | cons t rest ih =>
    by_cases ht : overlapsSchedule event.start_time event.end_time
        t.start_time t.end_time = true
    · simp [checkEventConflict, ht]
    · simp only [Bool.not_eq_true] at ht
      simpa [checkEventConflict, ht] using ih

/-- C10, witness: the conflict with [5, 15] found on the first list is
returned unchanged after appending the further entry [20, 30]. -/
theorem checkEventConflict_append_witness :
    checkEventConflict ([mkSchedule 5 15] ++ [mkSchedule 20 30]) (mkEvent 0 10) =
      checkEventConflict [mkSchedule 5 15] (mkEvent 0 10) :=
  (checkEventConflict_append (mkEvent 0 10) [mkSchedule 5 15]
    [mkSchedule 20 30]).2 (by decide)
